import Mathlib

set_option autoImplicit false

/- Shallow embedding of the personal-finance bookkeeping service:
   domain model (app/domain/models.py, app/domain/errors.py),
   application service (app/application/services/transaction_service.py),
   and the SQLAlchemy repository conversions
   (app/infrastructure/repositories/transaction_repo_sqlalchemy.py).
   Python Decimal amounts are modelled as exact rationals (Rat);
   datetimes as an integer instant plus an awareness flag (the only
   timezone the code ever attaches is UTC). -/

/-- Domain errors of app/domain/errors.py: DomainValidationError and NotFoundError. -/
inductive DomainError where
  | DomainValidationError (msg : String)
  | NotFoundError (msg : String)
  deriving DecidableEq, Repr

/-- Transaction type enum (app/domain/models.py, TransactionType). -/
inductive TransactionType where
  | expense
  | income
  deriving DecidableEq, Repr

/-- String value of the enum member (Python str-enum value attribute). -/
def TransactionType.value : TransactionType → String
  | .expense => "expense"
  | .income => "income"

/-- Parsing a raw string into the enum: Python TransactionType(s) raises
ValueError on any string other than the two member values, modelled as none. -/
def TransactionType.fromString : String → Option TransactionType
  | "expense" => some .expense
  | "income" => some .income
  | _ => none

/-- Python datetime, reduced to what the code observes: a linear instant
(wall) and whether tzinfo is set (aware; the code only ever attaches UTC,
so one flag suffices). replace with UTC keeps wall and sets aware. -/
structure PyDateTime where
  wall : Int
  aware : Bool
  deriving DecidableEq, Repr

/-- Money value object (app/domain/models.py): a Decimal amount and a currency code. -/
structure Money where
  amount : Rat
  currency : String
  deriving DecidableEq, Repr

/-- Construction of Money including the post-init validation of
app/domain/models.py lines 22-26: amount must be positive and currency a
non-empty string of length 3; a violation raises DomainValidationError. -/
def Money.make (amount : Rat) (currency : String) : Except DomainError Money :=
  if amount ≤ 0 then
    .error (.DomainValidationError "Amount must be greater than 0")
  else if currency = "" ∨ currency.length ≠ 3 then
    .error (.DomainValidationError "Currency must be a 3-letter code (e.g. RUB)")
  else
    .ok ⟨amount, currency⟩

/-- Transaction record (app/domain/models.py, Transaction). -/
structure Transaction where
  id : String
  user_id : String
  type : TransactionType
  money : Money
  occurred_at : PyDateTime
  created_at : PyDateTime
  category_id : Option String
  account_id : Option String
  description : Option String
  deriving DecidableEq, Repr

/-- Factory Transaction.create (app/domain/models.py lines 41-70). The two
effects uuid4() and datetime.now(tz=UTC) are passed in as freshId and now. -/
def Transaction.create (freshId : String) (now : PyDateTime) (user_id : String)
    (type : TransactionType) (money : Money) (occurred_at : PyDateTime)
    (category_id account_id description : Option String) :
    Except DomainError Transaction :=
  if user_id = "" then
    .error (.DomainValidationError "user_id is required")
  else if occurred_at.aware = false then
    .error (.DomainValidationError "occurred_at must be timezone-aware (e.g. UTC)")
  else
    .ok ⟨freshId, user_id, type, money, occurred_at, now, category_id, account_id, description⟩

/-- The abstract store interface (app/domain/repositories.py): the read
operations the service calls, as pure functions of an opaque store state.
The write operation add is modelled where needed as appending to a list. -/
structure TransactionRepository where
  get : String → Option Transaction
  list_by_user : String → List Transaction
  list_by_user_and_categories : String → List String → List Transaction
  list_by_user_and_period : String → PyDateTime → PyDateTime → List Transaction

/-- Python dict lookup d.get(k, v0) on an insertion-ordered association list
with unique keys (the only kind a Python dict produces). -/
def dictGetD {α : Type} [DecidableEq α] : List (α × Rat) → α → Rat → Rat
  | [], _, v0 => v0
  | p :: rest, k, v0 => if p.1 = k then p.2 else dictGetD rest k v0

/-- Python dict assignment d[k] = v on an insertion-ordered association list
with unique keys: overwrite in place if the key is present, else append. -/
def dictSet {α : Type} [DecidableEq α] : List (α × Rat) → α → Rat → List (α × Rat)
  | [], k, v => [(k, v)]
  | p :: rest, k, v => if p.1 = k then (k, v) :: rest else p :: dictSet rest k v

/-- Keys of the association-list dict, in insertion order. -/
def dictKeys {α : Type} (d : List (α × Rat)) : List α :=
  d.map Prod.fst

/-- Helper of dedupFirstSeen carrying the set of keys already emitted. -/
def dedupFirstSeenGo : List String → List String → List String
  | [], _ => []
  | x :: xs, seen => if x ∈ seen then dedupFirstSeenGo xs seen else x :: dedupFirstSeenGo xs (x :: seen)

/-- Python list(dict.fromkeys(l)): deduplicate keeping the first occurrence
of each element, preserving first-seen order. -/
def dedupFirstSeen (l : List String) : List String :=
  dedupFirstSeenGo l []

/-- Timezone normalization (transaction_service.py lines 119-123): a naive
datetime is reinterpreted as UTC, an aware one is returned unchanged. -/
def TransactionService.normalize_datetime (value : PyDateTime) : PyDateTime :=
  if value.aware then value else { value with aware := true }

/-- Service operation record_transaction (transaction_service.py lines 15-50).
The repository contents are modelled as the list store; repo.add appends.
On an exception the store is returned unchanged (add is the last step). -/
def TransactionService.record_transaction (store : List Transaction)
    (freshId : String) (now : PyDateTime) (user_id tx_type : String)
    (amount : Rat) (currency : String) (occurred_at : PyDateTime)
    (category_id account_id description : Option String) :
    Except DomainError Transaction × List Transaction :=
  match TransactionType.fromString tx_type with
  | none => (.error (.DomainValidationError ("Unsupported transaction type: " ++ tx_type)), store)
  | some ttype =>
    let occurred_at := if occurred_at.aware = false then { occurred_at with aware := true } else occurred_at
    match Money.make amount currency with
    | .error e => (.error e, store)
    | .ok money =>
      match Transaction.create freshId now user_id ttype money occurred_at
          category_id account_id description with
      | .error e => (.error e, store)
      | .ok tx => (.ok tx, store ++ [tx])

/-- Service operation get_transaction (transaction_service.py lines 52-58). -/
def TransactionService.get_transaction (repo : TransactionRepository)
    (user_id transaction_id : String) : Except DomainError Transaction :=
  match repo.get transaction_id with
  | none => .error (.NotFoundError "Transaction not found")
  | some tx =>
    if tx.user_id ≠ user_id then .error (.NotFoundError "Transaction not found")
    else .ok tx

/-- Loop body of the aggregation loop of get_transactions_by_categories
(transaction_service.py lines 80-86): accumulate total_expense and the
per-category dict; a null category updates only the total. -/
def byCatStep (acc : Rat × List (String × Rat)) (tx : Transaction) :
    Rat × List (String × Rat) :=
  if tx.type = TransactionType.expense then
    match tx.category_id with
    | some cid =>
      (acc.1 + tx.money.amount, dictSet acc.2 cid (dictGetD acc.2 cid 0 + tx.money.amount))
    | none => (acc.1 + tx.money.amount, acc.2)
  else acc

/-- Service operation get_transactions_by_categories
(transaction_service.py lines 63-88). -/
def TransactionService.get_transactions_by_categories (repo : TransactionRepository)
    (user_id : String) (category_ids : List String) :
    Except DomainError (List Transaction × Rat × List (String × Rat)) :=
  let unique_category_ids := dedupFirstSeen category_ids
  if unique_category_ids = [] then
    .error (.DomainValidationError "category_ids must not be empty")
  else
    let transactions := repo.list_by_user_and_categories user_id unique_category_ids
    let seeded := unique_category_ids.map (fun category_id => (category_id, (0 : Rat)))
    let r := transactions.foldl byCatStep (0, seeded)
    .ok (transactions, r.1, r.2)

/-- Loop body of the aggregation loop of get_transactions_for_period
(transaction_service.py lines 110-115): the dict is keyed by the actual
category id, the null category included. -/
def periodStep (acc : Rat × List (Option String × Rat)) (tx : Transaction) :
    Rat × List (Option String × Rat) :=
  if tx.type = TransactionType.expense then
    (acc.1 + tx.money.amount,
      dictSet acc.2 tx.category_id (dictGetD acc.2 tx.category_id 0 + tx.money.amount))
  else acc

/-- Quantization performed by the amount column of the transactions table
(transaction_repo_sqlalchemy.py line 24, Numeric(12, 2)): a stored value is
rounded to 2 decimal places (half-up, the usual SQL backend rounding; the
theorems below do not depend on the tie-breaking mode). -/
def quantize2 (a : Rat) : Rat :=
  (round (a * 100) : Int) / 100

/-- Row of the transactions table (transaction_repo_sqlalchemy.py, TransactionORM):
the enum is stored as its string value, the Money fields flattened. The amount
holds the scale-2 value the Numeric(12, 2) column keeps, and the datetime
columns hold what the configured SQLite backend keeps: the wall-clock instant
without tzinfo (tz-naive). -/
structure TransactionRow where
  id : String
  user_id : String
  type : String
  amount : Rat
  currency : String
  occurred_at : PyDateTime
  created_at : PyDateTime
  category_id : Option String
  account_id : Option String
  description : Option String
  deriving DecidableEq, Repr

/-- Domain to DB conversion performed by SQLAlchemyTransactionRepository.add
(transaction_repo_sqlalchemy.py lines 39-55); the table contents are modelled
as a list of rows, INSERT appends. Storage applies the column semantics: the
Numeric(12, 2) amount column quantizes to 2 decimal places, and the SQLite
DATETIME storage format drops tzinfo, keeping the wall-clock instant. -/
def SQLAlchemyTransactionRepository.add (table : List TransactionRow)
    (tx : Transaction) : List TransactionRow :=
  table ++ [⟨tx.id, tx.user_id, tx.type.value, quantize2 tx.money.amount, tx.money.currency,
    ⟨tx.occurred_at.wall, false⟩, ⟨tx.created_at.wall, false⟩,
    tx.category_id, tx.account_id, tx.description⟩]

/-- DB to domain conversion (transaction_repo_sqlalchemy.py lines 111-123).
TransactionType(row.type) and Money construction can raise on a corrupt row;
a raised conversion error is modelled as none. -/
def SQLAlchemyTransactionRepository.to_domain (row : TransactionRow) :
    Option Transaction :=
  match TransactionType.fromString row.type with
  | none => none
  | some t =>
    match Money.make row.amount row.currency with
    | .error _ => none
    | .ok m =>
      some ⟨row.id, row.user_id, t, m, row.occurred_at, row.created_at,
        row.category_id, row.account_id, row.description⟩

/-- Primary-key lookup session.get plus conversion
(transaction_repo_sqlalchemy.py lines 57-63): none when the id is absent
(or the stored row fails to convert back). -/
def SQLAlchemyTransactionRepository.get (table : List TransactionRow)
    (transaction_id : String) : Option Transaction :=
  match table.find? (fun row => decide (row.id = transaction_id)) with
  | none => none
  | some row => SQLAlchemyTransactionRepository.to_domain row

/-- Insertion step of the ORDER BY created_at DESC ordering of the query results. -/
def insertByCreatedDesc (row : TransactionRow) : List TransactionRow → List TransactionRow
  | [] => [row]
  | r :: rest =>
    if r.created_at.wall < row.created_at.wall then row :: r :: rest
    else r :: insertByCreatedDesc row rest

/-- ORDER BY created_at DESC over the selected rows, as an insertion sort. -/
def sortByCreatedDesc : List TransactionRow → List TransactionRow
  | [] => []
  | r :: rest => insertByCreatedDesc r (sortByCreatedDesc rest)

/-- Conversion of every selected row back to the domain; a row that fails to
convert raises, modelled as none for the whole result. -/
def toDomainAll : List TransactionRow → Option (List Transaction)
  | [] => some []
  | row :: rest =>
    match SQLAlchemyTransactionRepository.to_domain row, toDomainAll rest with
    | some tx, some txs => some (tx :: txs)
    | _, _ => none

/-- Query list_by_user (transaction_repo_sqlalchemy.py lines 65-73): rows of
the user, newest created first, converted back to domain transactions. -/
def SQLAlchemyTransactionRepository.list_by_user (table : List TransactionRow)
    (user_id : String) : Option (List Transaction) :=
  toDomainAll (sortByCreatedDesc (table.filter (fun row => decide (row.user_id = user_id))))

/-- Service operation get_transactions_for_period
(transaction_service.py lines 90-117). -/
def TransactionService.get_transactions_for_period (repo : TransactionRepository)
    (user_id : String) (start_at end_at : PyDateTime) :
    Except DomainError (List Transaction × Rat × List (Option String × Rat)) :=
  let s := TransactionService.normalize_datetime start_at
  let e := TransactionService.normalize_datetime end_at
  if e.wall < s.wall then
    .error (.DomainValidationError "start_at must be before or equal to end_at")
  else
    let transactions := repo.list_by_user_and_period user_id s e
    let r := transactions.foldl periodStep (0, [])
    .ok (transactions, r.1, r.2)

/-- Sum of the amounts of the expense transactions of a list. -/
def expenseSum : List Transaction → Rat
  | [] => 0
  | tx :: rest => (if tx.type = TransactionType.expense then tx.money.amount else 0) + expenseSum rest

/-- Sum of the amounts of the expense transactions carrying category c. -/
def catExpenseSum (c : String) : List Transaction → Rat
  | [] => 0
  | tx :: rest =>
    (if tx.type = TransactionType.expense ∧ tx.category_id = some c then tx.money.amount else 0)
      + catExpenseSum c rest

/-- Sum of the amounts of the expense transactions whose category key
(the null key included) is k. -/
def periodCatSum (k : Option String) : List Transaction → Rat
  | [] => 0
  | tx :: rest =>
    (if tx.type = TransactionType.expense ∧ tx.category_id = k then tx.money.amount else 0)
      + periodCatSum k rest

theorem dictGetD_dictSet {α : Type} [DecidableEq α] (d : List (α × Rat)) (k c : α) (v v0 : Rat) :
    dictGetD (dictSet d k v) c v0 = if c = k then v else dictGetD d c v0 := by
  induction d with
  | nil =>
    by_cases h : c = k
    · simp [dictSet, dictGetD, h]
    · have h2 : ¬ k = c := fun hh => h hh.symm
      simp [dictSet, dictGetD, h, h2]
  | cons p rest ih =>
    by_cases hp : p.1 = k
    · by_cases h : c = k
      · subst h
        simp [dictSet, dictGetD, hp]
      · have h2 : ¬ k = c := fun hh => h hh.symm
        have hpc : ¬ p.1 = c := fun hh => h2 (hp.symm.trans hh)
        simp [dictSet, dictGetD, hp, h, h2, hpc]
    · by_cases hpc : p.1 = c
      · have h2 : ¬ c = k := fun hh => hp (hpc.trans hh)
        simp [dictSet, dictGetD, hp, hpc, h2]
      · simp [dictSet, dictGetD, hp, hpc, ih]

theorem mem_dictKeys_dictSet {α : Type} [DecidableEq α] (d : List (α × Rat)) (k c : α) (v : Rat) :
    c ∈ dictKeys (dictSet d k v) ↔ c ∈ dictKeys d ∨ c = k := by
  induction d with
  | nil => simp [dictSet, dictKeys]
  | cons p rest ih =>
    by_cases hp : p.1 = k
    · subst hp
      simp [dictSet, dictKeys, eq_comm]
      tauto
    · simp [dictSet, dictKeys, hp] at ih ⊢
      tauto

theorem dictKeys_dictSet_of_mem {α : Type} [DecidableEq α] (d : List (α × Rat)) (k : α) (v : Rat)
    (h : k ∈ dictKeys d) : dictKeys (dictSet d k v) = dictKeys d := by
  induction d with
  | nil => simp [dictKeys] at h
  | cons p rest ih =>
    by_cases hp : p.1 = k
    · simp [dictSet, dictKeys, hp]
    · have hk : k ∈ dictKeys rest := by
        simp [dictKeys] at h ⊢
        rcases h with h | h
        · exact absurd h.symm hp
        · exact h
      have h2 := ih hk
      simp [dictKeys] at h2
      simp [dictSet, dictKeys, hp, h2]

theorem dictGetD_seeded (l : List String) (c : String) :
    dictGetD (l.map (fun category_id => (category_id, (0 : Rat)))) c 0 = 0 := by
  induction l with
  | nil => simp [dictGetD]
  | cons x rest ih => by_cases h : x = c <;> simp [dictGetD, h, ih]

theorem mem_dedupFirstSeenGo (l : List String) (seen : List String) (x : String) :
    x ∈ dedupFirstSeenGo l seen ↔ x ∈ l ∧ x ∉ seen := by
  induction l generalizing seen with
  | nil => simp [dedupFirstSeenGo]
  | cons y ys ih =>
    by_cases hy : y ∈ seen
    · rw [show dedupFirstSeenGo (y :: ys) seen = dedupFirstSeenGo ys seen from by
        simp [dedupFirstSeenGo, hy]]
      rw [ih seen]
      constructor
      · rintro ⟨h1, h2⟩
        exact ⟨List.mem_cons_of_mem _ h1, h2⟩
      · rintro ⟨h1, h2⟩
        rcases List.mem_cons.mp h1 with rfl | h1'
        · exact absurd hy h2
        · exact ⟨h1', h2⟩
    · rw [show dedupFirstSeenGo (y :: ys) seen = y :: dedupFirstSeenGo ys (y :: seen) from by
        simp [dedupFirstSeenGo, hy]]
      constructor
      · intro hmem
        rcases List.mem_cons.mp hmem with rfl | hmem'
        · exact ⟨List.mem_cons_self _ _, hy⟩
        · rcases (ih (y :: seen)).mp hmem' with ⟨h1, h2⟩
          exact ⟨List.mem_cons_of_mem _ h1, fun hh => h2 (List.mem_cons_of_mem _ hh)⟩
      · rintro ⟨h1, h2⟩
        rcases List.mem_cons.mp h1 with rfl | h1'
        · exact List.mem_cons_self _ _
        · by_cases hxy : x = y
          · subst hxy
            exact List.mem_cons_self _ _
          · refine List.mem_cons_of_mem _ ((ih (y :: seen)).mpr ⟨h1', ?_⟩)
            intro hh
            rcases List.mem_cons.mp hh with hh' | hh'
            · exact hxy hh'
            · exact h2 hh'

theorem nodup_dedupFirstSeenGo (l : List String) (seen : List String) :
    (dedupFirstSeenGo l seen).Nodup := by
  induction l generalizing seen with
  | nil => simp [dedupFirstSeenGo]
  | cons y ys ih =>
    by_cases hy : y ∈ seen
    · rw [show dedupFirstSeenGo (y :: ys) seen = dedupFirstSeenGo ys seen from by
        simp [dedupFirstSeenGo, hy]]
      exact ih seen
    · rw [show dedupFirstSeenGo (y :: ys) seen = y :: dedupFirstSeenGo ys (y :: seen) from by
        simp [dedupFirstSeenGo, hy]]
      refine List.nodup_cons.mpr ⟨?_, ih (y :: seen)⟩
      intro hmem
      rcases (mem_dedupFirstSeenGo ys (y :: seen) y).mp hmem with ⟨_, hns⟩
      exact hns (List.mem_cons_self y seen)

theorem mem_dedupFirstSeen (l : List String) (x : String) :
    x ∈ dedupFirstSeen l ↔ x ∈ l := by
  simpa [dedupFirstSeen] using mem_dedupFirstSeenGo l [] x

theorem nodup_dedupFirstSeen (l : List String) : (dedupFirstSeen l).Nodup :=
  nodup_dedupFirstSeenGo l []

theorem byCat_foldl_fst (l : List Transaction) (t : Rat) (d : List (String × Rat)) :
    (l.foldl byCatStep (t, d)).1 = t + expenseSum l := by
  induction l generalizing t d with
  | nil => simp [expenseSum]
  | cons tx rest ih =>
    simp only [List.foldl_cons, expenseSum]
    by_cases h : tx.type = TransactionType.expense
    · cases hc : tx.category_id with
      | none => rw [show byCatStep (t, d) tx = (t + tx.money.amount, d) by simp [byCatStep, h, hc]]
                rw [ih]
                simp [h, add_assoc]
      | some cid =>
        rw [show byCatStep (t, d) tx
            = (t + tx.money.amount, dictSet d cid (dictGetD d cid 0 + tx.money.amount)) by
          simp [byCatStep, h, hc]]
        rw [ih]
        simp [h, add_assoc]
    · rw [show byCatStep (t, d) tx = (t, d) by simp [byCatStep, h]]
      rw [ih]
      simp [h]

theorem byCat_foldl_get (l : List Transaction) (t : Rat) (d : List (String × Rat)) (c : String) :
    dictGetD (l.foldl byCatStep (t, d)).2 c 0 = dictGetD d c 0 + catExpenseSum c l := by
  induction l generalizing t d with
  | nil => simp [catExpenseSum]
  | cons tx rest ih =>
    simp only [List.foldl_cons, catExpenseSum]
    by_cases h : tx.type = TransactionType.expense
    · cases hc : tx.category_id with
      | none =>
        rw [show byCatStep (t, d) tx = (t + tx.money.amount, d) by simp [byCatStep, h, hc]]
        rw [ih]
        simp [h, hc]
      | some cid =>
        rw [show byCatStep (t, d) tx
            = (t + tx.money.amount, dictSet d cid (dictGetD d cid 0 + tx.money.amount)) by
          simp [byCatStep, h, hc]]
        rw [ih, dictGetD_dictSet]
        by_cases hcc : c = cid
        · subst hcc
          simp [h, hc, add_assoc]
        · have h2 : ¬ cid = c := fun hh => hcc hh.symm
          simp [h, hc, hcc, h2]
    · rw [show byCatStep (t, d) tx = (t, d) by simp [byCatStep, h]]
      rw [ih]
      simp [h]

theorem byCat_foldl_keys (l : List Transaction) (t : Rat) (d : List (String × Rat))
    (h : ∀ tx ∈ l, tx.type = TransactionType.expense →
      ∀ cid, tx.category_id = some cid → cid ∈ dictKeys d) :
    dictKeys (l.foldl byCatStep (t, d)).2 = dictKeys d := by
  induction l generalizing t d with
  | nil => rfl
  | cons tx rest ih =>
    simp only [List.foldl_cons]
    by_cases he : tx.type = TransactionType.expense
    · cases hc : tx.category_id with
      | none =>
        rw [show byCatStep (t, d) tx = (t + tx.money.amount, d) by simp [byCatStep, he, hc]]
        exact ih _ _ (fun tx' hm => h tx' (List.mem_cons_of_mem _ hm))
      | some cid =>
        have hcid : cid ∈ dictKeys d := h tx (List.mem_cons_self _ _) he cid hc
        rw [show byCatStep (t, d) tx
            = (t + tx.money.amount, dictSet d cid (dictGetD d cid 0 + tx.money.amount)) by
          simp [byCatStep, he, hc]]
        rw [ih _ _ (fun tx' hm he' cid' hc' => by
          rw [dictKeys_dictSet_of_mem d cid _ hcid]
          exact h tx' (List.mem_cons_of_mem _ hm) he' cid' hc')]
        exact dictKeys_dictSet_of_mem d cid _ hcid
    · rw [show byCatStep (t, d) tx = (t, d) by simp [byCatStep, he]]
      exact ih _ _ (fun tx' hm => h tx' (List.mem_cons_of_mem _ hm))

theorem period_foldl_get (l : List Transaction) (t : Rat) (d : List (Option String × Rat))
    (k : Option String) :
    dictGetD (l.foldl periodStep (t, d)).2 k 0 = dictGetD d k 0 + periodCatSum k l := by
  induction l generalizing t d with
  | nil => simp [periodCatSum]
  | cons tx rest ih =>
    simp only [List.foldl_cons, periodCatSum]
    by_cases h : tx.type = TransactionType.expense
    · rw [show periodStep (t, d) tx
          = (t + tx.money.amount,
             dictSet d tx.category_id (dictGetD d tx.category_id 0 + tx.money.amount)) by
        simp [periodStep, h]]
      rw [ih, dictGetD_dictSet]
      by_cases hk : k = tx.category_id
      · subst hk
        simp [h, add_assoc]
      · have h2 : ¬ tx.category_id = k := fun hh => hk hh.symm
        simp [h, hk, h2]
    · rw [show periodStep (t, d) tx = (t, d) by simp [periodStep, h]]
      rw [ih]
      simp [h]

theorem period_foldl_keys_mem (l : List Transaction) (t : Rat) (d : List (Option String × Rat))
    (k : Option String) :
    k ∈ dictKeys (l.foldl periodStep (t, d)).2
      ↔ k ∈ dictKeys d
        ∨ ∃ tx ∈ l, tx.type = TransactionType.expense ∧ tx.category_id = k := by
  induction l generalizing t d with
  | nil => simp
  | cons tx rest ih =>
    simp only [List.foldl_cons]
    by_cases h : tx.type = TransactionType.expense
    · rw [show periodStep (t, d) tx
          = (t + tx.money.amount,
             dictSet d tx.category_id (dictGetD d tx.category_id 0 + tx.money.amount)) by
        simp [periodStep, h]]
      rw [ih]
      rw [mem_dictKeys_dictSet]
      constructor
      · rintro ((hd | hd) | hd)
        · exact Or.inl hd
        · exact Or.inr ⟨tx, List.mem_cons_self _ _, h, hd.symm⟩
        · rcases hd with ⟨tx', hm, he, hk⟩
          exact Or.inr ⟨tx', List.mem_cons_of_mem _ hm, he, hk⟩
      · rintro (hd | ⟨tx', hm, he, hk⟩)
        · exact Or.inl (Or.inl hd)
        · rcases List.mem_cons.mp hm with rfl | hm'
          · exact Or.inl (Or.inr hk.symm)
          · exact Or.inr ⟨tx', hm', he, hk⟩
    · rw [show periodStep (t, d) tx = (t, d) by simp [periodStep, h]]
      rw [ih]
      constructor
      · rintro (hd | hd)
        · exact Or.inl hd
        · rcases hd with ⟨tx', hm, he, hk⟩
          exact Or.inr ⟨tx', List.mem_cons_of_mem _ hm, he, hk⟩
      · rintro (hd | ⟨tx', hm, he, hk⟩)
        · exact Or.inl hd
        · rcases List.mem_cons.mp hm with rfl | hm'
          · exact absurd he h
          · exact Or.inr ⟨tx', hm', he, hk⟩

/-- Sample data for the concrete witnesses, mirroring the worked example of
the spec: expense(food,100), income(food,20), expense(transport,40), one user. -/
def txExpenseFood : Transaction :=
  ⟨"t1", "u1", .expense, ⟨100, "RUB"⟩, ⟨5, true⟩, ⟨1, true⟩, some "food", none, none⟩

def txIncomeFood : Transaction :=
  ⟨"t2", "u1", .income, ⟨20, "RUB"⟩, ⟨6, true⟩, ⟨2, true⟩, some "food", none, none⟩

def txExpenseTransport : Transaction :=
  ⟨"t3", "u1", .expense, ⟨40, "RUB"⟩, ⟨7, true⟩, ⟨3, true⟩, some "transport", none, none⟩

def sampleTxs : List Transaction := [txExpenseFood, txIncomeFood, txExpenseTransport]

/-- A concrete store holding the sample transactions. -/
def sampleRepo : TransactionRepository :=
  ⟨fun i => sampleTxs.find? (fun tx => decide (tx.id = i)),
   fun u => sampleTxs.filter (fun tx => decide (tx.user_id = u)),
   fun _ _ => sampleTxs,
   fun _ _ _ => sampleTxs⟩

/-- C9: Money construction fails with a validation error for every amount ≤ 0
and for every currency whose length is not 3; for every positive amount with a
length-3 currency it succeeds (construction is pure, so failure has no side
effect by construction). -/
theorem money_make_validation (amount : Rat) (currency : String) :
    (amount ≤ 0 →
      Money.make amount currency
        = .error (.DomainValidationError "Amount must be greater than 0"))
    ∧ (0 < amount → currency.length ≠ 3 →
      Money.make amount currency
        = .error (.DomainValidationError "Currency must be a 3-letter code (e.g. RUB)"))
    ∧ ((amount ≤ 0 ∨ currency.length ≠ 3) → (Money.make amount currency).isOk = false)
    ∧ (0 < amount → currency.length = 3 →
        Money.make amount currency = .ok ⟨amount, currency⟩) := by
  refine ⟨?_, ?_, ?_, ?_⟩
  · intro h
    simp [Money.make, h]
  · intro ha h
    have h0 : ¬ amount ≤ 0 := not_le.mpr ha
    simp [Money.make, h0, h]
  · rintro (h | h)
    · simp [Money.make, h, Except.isOk, Except.toBool]
    · by_cases ha : amount ≤ 0
      · simp [Money.make, ha, Except.isOk, Except.toBool]
      · simp [Money.make, ha, h, Except.isOk, Except.toBool]
  · intro ha hc
    have h0 : ¬ amount ≤ 0 := not_le.mpr ha
    have hne : ¬ (currency = "" ∨ currency.length ≠ 3) := by
      rintro (rfl | h)
      · simp at hc
      · exact h hc
    simp [Money.make, h0, hne]

theorem money_make_validation_witness :
    Money.make 5 "RUB" = .ok ⟨5, "RUB"⟩
    ∧ Money.make (-1) "RUB" = .error (.DomainValidationError "Amount must be greater than 0")
    ∧ Money.make 5 "RUBLE"
        = .error (.DomainValidationError "Currency must be a 3-letter code (e.g. RUB)")
    ∧ (Money.make 0 "RUB").isOk = false :=
  ⟨(money_make_validation 5 "RUB").2.2.2 (by norm_num) (by decide),
   (money_make_validation (-1) "RUB").1 (by norm_num),
   (money_make_validation 5 "RUBLE").2.1 (by norm_num) (by decide),
   (money_make_validation 0 "RUB").2.2.1 (Or.inl le_rfl)⟩

/-- C7: get_transactions_by_categories fails with the validation error for
every input whose first-seen deduplication is empty, whatever the store
contains (the quantification over every repository shows the failure is
decided before, and independently of, any store call). -/
theorem by_categories_empty_validation (repo : TransactionRepository)
    (user_id : String) (category_ids : List String)
    (h : dedupFirstSeen category_ids = []) :
    TransactionService.get_transactions_by_categories repo user_id category_ids
      = .error (.DomainValidationError "category_ids must not be empty") := by
  simp [TransactionService.get_transactions_by_categories, h]

theorem by_categories_empty_validation_witness :
    TransactionService.get_transactions_by_categories sampleRepo "u1" []
      = .error (.DomainValidationError "category_ids must not be empty") :=
  by_categories_empty_validation sampleRepo "u1" [] rfl

/-- C6: get_transactions_for_period fails with the validation error exactly
when, after normalizing naive inputs to UTC, start_at is after end_at; when
start_at is at or before end_at (equality included) it returns a result. -/
theorem for_period_range_validation (repo : TransactionRepository) (user_id : String)
    (start_at end_at : PyDateTime) :
    ((TransactionService.normalize_datetime end_at).wall
        < (TransactionService.normalize_datetime start_at).wall →
      TransactionService.get_transactions_for_period repo user_id start_at end_at
        = .error (.DomainValidationError "start_at must be before or equal to end_at"))
    ∧ ((TransactionService.normalize_datetime start_at).wall
        ≤ (TransactionService.normalize_datetime end_at).wall →
      TransactionService.get_transactions_for_period repo user_id start_at end_at
        = .ok (repo.list_by_user_and_period user_id
            (TransactionService.normalize_datetime start_at)
            (TransactionService.normalize_datetime end_at),
          ((repo.list_by_user_and_period user_id
            (TransactionService.normalize_datetime start_at)
            (TransactionService.normalize_datetime end_at)).foldl periodStep (0, [])).1,
          ((repo.list_by_user_and_period user_id
            (TransactionService.normalize_datetime start_at)
            (TransactionService.normalize_datetime end_at)).foldl periodStep (0, [])).2)) := by
  constructor
  · intro h
    simp [TransactionService.get_transactions_for_period, h]
  · intro h
    have h2 : ¬ (TransactionService.normalize_datetime end_at).wall
        < (TransactionService.normalize_datetime start_at).wall := not_lt.mpr h
    simp [TransactionService.get_transactions_for_period, h2]

theorem for_period_range_validation_witness :
    TransactionService.get_transactions_for_period sampleRepo "u1" ⟨9, true⟩ ⟨2, true⟩
      = .error (.DomainValidationError "start_at must be before or equal to end_at")
    ∧ TransactionService.get_transactions_for_period sampleRepo "u1" ⟨4, true⟩ ⟨4, true⟩
        = .ok (sampleRepo.list_by_user_and_period "u1"
            (TransactionService.normalize_datetime ⟨4, true⟩)
            (TransactionService.normalize_datetime ⟨4, true⟩),
          ((sampleRepo.list_by_user_and_period "u1"
            (TransactionService.normalize_datetime ⟨4, true⟩)
            (TransactionService.normalize_datetime ⟨4, true⟩)).foldl periodStep (0, [])).1,
          ((sampleRepo.list_by_user_and_period "u1"
            (TransactionService.normalize_datetime ⟨4, true⟩)
            (TransactionService.normalize_datetime ⟨4, true⟩)).foldl periodStep (0, [])).2) :=
  ⟨(for_period_range_validation sampleRepo "u1" ⟨9, true⟩ ⟨2, true⟩).1 (by decide),
   (for_period_range_validation sampleRepo "u1" ⟨4, true⟩ ⟨4, true⟩).2 (by decide)⟩

/-- C4: get_transaction returns the identical NotFoundError value both when no
transaction has the id and when the stored owner differs from the requesting
user, and returns the transaction when the id exists with a matching owner. -/
theorem get_transaction_ownership (repo : TransactionRepository)
    (user_id transaction_id : String) :
    ((repo.get transaction_id = none
        ∨ ∃ tx, repo.get transaction_id = some tx ∧ tx.user_id ≠ user_id) →
      TransactionService.get_transaction repo user_id transaction_id
        = .error (.NotFoundError "Transaction not found"))
    ∧ (∀ tx, repo.get transaction_id = some tx → tx.user_id = user_id →
      TransactionService.get_transaction repo user_id transaction_id = .ok tx) := by
  constructor
  · rintro (h | ⟨tx, h, hne⟩)
    · simp [TransactionService.get_transaction, h]
    · simp [TransactionService.get_transaction, h, hne]
  · intro tx h heq
    simp [TransactionService.get_transaction, h, heq]

theorem get_transaction_ownership_witness :
    TransactionService.get_transaction sampleRepo "u1" "missing"
      = .error (.NotFoundError "Transaction not found")
    ∧ TransactionService.get_transaction sampleRepo "u2" "t1"
      = .error (.NotFoundError "Transaction not found")
    ∧ TransactionService.get_transaction sampleRepo "u1" "t1" = .ok txExpenseFood :=
  ⟨(get_transaction_ownership sampleRepo "u1" "missing").1 (Or.inl (by decide)),
   (get_transaction_ownership sampleRepo "u2" "t1").1
     (Or.inr ⟨txExpenseFood, by decide, by decide⟩),
   (get_transaction_ownership sampleRepo "u1" "t1").2 txExpenseFood (by decide) rfl⟩

theorem dictKeys_seeded (l : List String) :
    dictKeys (l.map (fun category_id => (category_id, (0 : Rat)))) = l := by
  induction l with
  | nil => rfl
  | cons x rest ih =>
    have h : dictKeys ((x :: rest).map (fun category_id => (category_id, (0 : Rat))))
        = x :: dictKeys (rest.map (fun category_id => (category_id, (0 : Rat)))) := rfl
    rw [h, ih]

/-- C1: on success, the total_expense of get_transactions_by_categories is the
sum of the amounts of exactly the fetched transactions of type expense: income
transactions contribute nothing, and a null-category expense still counts. -/
theorem by_categories_total_expense (repo : TransactionRepository) (user_id : String)
    (category_ids : List String) (transactions : List Transaction) (total : Rat)
    (expense_by_category : List (String × Rat))
    (h : TransactionService.get_transactions_by_categories repo user_id category_ids
        = .ok (transactions, total, expense_by_category)) :
    transactions = repo.list_by_user_and_categories user_id (dedupFirstSeen category_ids)
    ∧ total = expenseSum transactions := by
  by_cases hd : dedupFirstSeen category_ids = []
  · simp [TransactionService.get_transactions_by_categories, hd] at h
  · simp only [TransactionService.get_transactions_by_categories, hd, if_neg,
      ite_false, Except.ok.injEq, Prod.mk.injEq] at h
    obtain ⟨h1, h2, h3⟩ := h
    refine ⟨h1.symm, ?_⟩
    rw [← h2, ← h1, byCat_foldl_fst, zero_add]

theorem by_categories_total_expense_witness :
    sampleTxs = sampleRepo.list_by_user_and_categories "u1" (dedupFirstSeen ["food", "transport"])
    ∧ (140 : Rat) = expenseSum sampleTxs :=
  by_categories_total_expense sampleRepo "u1" ["food", "transport"] sampleTxs 140
    [("food", 100), ("transport", 40)] (by with_unfolding_all rfl)

/-- C2: on success, the per-category mapping of get_transactions_by_categories
has exactly the deduplicated requested ids as keys, in first-seen input order
(the deduplication is duplicate-free and keeps exactly the input's elements),
and maps every requested id to the sum of the expense amounts recorded under
it (zero when no expense matches); the scope hypothesis is the store contract
that fetched transactions carry only requested categories or none. -/
theorem by_categories_seeded_mapping (repo : TransactionRepository) (user_id : String)
    (category_ids : List String) (transactions : List Transaction) (total : Rat)
    (expense_by_category : List (String × Rat))
    (h : TransactionService.get_transactions_by_categories repo user_id category_ids
        = .ok (transactions, total, expense_by_category))
    (hscope : ∀ tx ∈ transactions, tx.type = TransactionType.expense →
        ∀ cid, tx.category_id = some cid → cid ∈ dedupFirstSeen category_ids) :
    dictKeys expense_by_category = dedupFirstSeen category_ids
    ∧ (dedupFirstSeen category_ids).Nodup
    ∧ (∀ x, x ∈ dedupFirstSeen category_ids ↔ x ∈ category_ids)
    ∧ (∀ c, dictGetD expense_by_category c 0 = catExpenseSum c transactions) := by
  by_cases hd : dedupFirstSeen category_ids = []
  · simp [TransactionService.get_transactions_by_categories, hd] at h
  · simp only [TransactionService.get_transactions_by_categories, hd, if_neg,
      ite_false, Except.ok.injEq, Prod.mk.injEq] at h
    obtain ⟨h1, h2, h3⟩ := h
    refine ⟨?_, nodup_dedupFirstSeen _, fun x => mem_dedupFirstSeen _ x, ?_⟩
    · rw [← h3]
      rw [byCat_foldl_keys]
      · exact dictKeys_seeded _
      · intro tx hm he cid hc
        rw [dictKeys_seeded]
        exact hscope tx (h1 ▸ hm) he cid hc
    · intro c
      rw [← h3, byCat_foldl_get, dictGetD_seeded, zero_add, h1]

theorem by_categories_seeded_mapping_witness :
    dictKeys [("food", (100 : Rat)), ("transport", 40)] = dedupFirstSeen ["food", "transport"]
    ∧ dictGetD [("food", (100 : Rat)), ("transport", 40)] "food" 0
        = catExpenseSum "food" sampleTxs := by
  have h := by_categories_seeded_mapping sampleRepo "u1" ["food", "transport"] sampleTxs 140
    [("food", 100), ("transport", 40)] (by with_unfolding_all rfl) ?hscope
  · exact ⟨h.1, h.2.2.2 "food"⟩
  case hscope =>
    intro tx hm he cid hc
    have hm' : tx = txExpenseFood ∨ tx = txIncomeFood ∨ tx = txExpenseTransport := by
      simpa [sampleTxs] using hm
    rcases hm' with rfl | rfl | rfl
    · have hcid : "food" = cid := by simpa [txExpenseFood] using hc
      subst hcid
      decide
    · exact absurd he (by decide)
    · have hcid : "transport" = cid := by simpa [txExpenseTransport] using hc
      subst hcid
      decide

/-- C5: on success, the per-category mapping of get_transactions_for_period
has a key (the null key included) exactly when some fetched expense
transaction carries that category id, with the sum of the matching expense
amounts as value; nothing is pre-seeded. -/
theorem for_period_actual_categories (repo : TransactionRepository) (user_id : String)
    (start_at end_at : PyDateTime) (transactions : List Transaction) (total : Rat)
    (expense_by_category : List (Option String × Rat))
    (h : TransactionService.get_transactions_for_period repo user_id start_at end_at
        = .ok (transactions, total, expense_by_category)) :
    transactions = repo.list_by_user_and_period user_id
        (TransactionService.normalize_datetime start_at)
        (TransactionService.normalize_datetime end_at)
    ∧ (∀ k, k ∈ dictKeys expense_by_category
        ↔ ∃ tx ∈ transactions, tx.type = TransactionType.expense ∧ tx.category_id = k)
    ∧ (∀ k, dictGetD expense_by_category k 0 = periodCatSum k transactions) := by
  by_cases hlt : (TransactionService.normalize_datetime end_at).wall
      < (TransactionService.normalize_datetime start_at).wall
  · simp [TransactionService.get_transactions_for_period, hlt] at h
  · simp only [TransactionService.get_transactions_for_period, hlt, if_neg,
      ite_false, Except.ok.injEq, Prod.mk.injEq] at h
    obtain ⟨h1, h2, h3⟩ := h
    refine ⟨h1.symm, ?_, ?_⟩
    · intro k
      rw [← h3, period_foldl_keys_mem, ← h1]
      simp [dictKeys]
    · intro k
      rw [← h3, period_foldl_get, ← h1]
      simp [dictGetD]

theorem for_period_actual_categories_witness :
    sampleTxs = sampleRepo.list_by_user_and_period "u1"
        (TransactionService.normalize_datetime ⟨0, true⟩)
        (TransactionService.normalize_datetime ⟨10, true⟩)
    ∧ dictGetD [(some "food", (100 : Rat)), (some "transport", 40)] (some "food") 0
        = periodCatSum (some "food") sampleTxs := by
  have h := for_period_actual_categories sampleRepo "u1" ⟨0, true⟩ ⟨10, true⟩ sampleTxs 140
    [(some "food", 100), (some "transport", 40)] (by with_unfolding_all rfl)
  exact ⟨h.1, h.2.2 (some "food")⟩

theorem fromString_eq_none (s : String) (h1 : s ≠ "expense") (h2 : s ≠ "income") :
    TransactionType.fromString s = none := by
  unfold TransactionType.fromString
  split
  · exact absurd rfl h1
  · exact absurd rfl h2
  · rfl

theorem fromString_value (t : TransactionType) :
    TransactionType.fromString t.value = some t := by
  cases t <;> rfl

theorem normalize_as_ite (occurred_at : PyDateTime) :
    (if occurred_at.aware = false then { occurred_at with aware := true } else occurred_at)
      = TransactionService.normalize_datetime occurred_at := by
  by_cases hb : occurred_at.aware <;> simp [TransactionService.normalize_datetime, hb]

/-- C8: record_transaction rejects every transaction-type string other than
expense and income with a validation error, leaving the store untouched;
for expense or income with otherwise valid inputs it persists exactly one new
transaction carrying the freshly generated id and the server-set creation
time, and returns it. -/
theorem record_transaction_type_check (store : List Transaction) (freshId : String)
    (now : PyDateTime) (user_id tx_type : String) (amount : Rat) (currency : String)
    (occurred_at : PyDateTime) (category_id account_id description : Option String) :
    (tx_type ≠ "expense" → tx_type ≠ "income" →
      TransactionService.record_transaction store freshId now user_id tx_type amount currency
          occurred_at category_id account_id description
        = (.error (.DomainValidationError ("Unsupported transaction type: " ++ tx_type)), store))
    ∧ (tx_type = "expense" → user_id ≠ "" → 0 < amount → currency.length = 3 →
      TransactionService.record_transaction store freshId now user_id tx_type amount currency
          occurred_at category_id account_id description
        = (.ok ⟨freshId, user_id, .expense, ⟨amount, currency⟩,
            TransactionService.normalize_datetime occurred_at, now,
            category_id, account_id, description⟩,
          store ++ [⟨freshId, user_id, .expense, ⟨amount, currency⟩,
            TransactionService.normalize_datetime occurred_at, now,
            category_id, account_id, description⟩]))
    ∧ (tx_type = "income" → user_id ≠ "" → 0 < amount → currency.length = 3 →
      TransactionService.record_transaction store freshId now user_id tx_type amount currency
          occurred_at category_id account_id description
        = (.ok ⟨freshId, user_id, .income, ⟨amount, currency⟩,
            TransactionService.normalize_datetime occurred_at, now,
            category_id, account_id, description⟩,
          store ++ [⟨freshId, user_id, .income, ⟨amount, currency⟩,
            TransactionService.normalize_datetime occurred_at, now,
            category_id, account_id, description⟩])) := by
  refine ⟨?_, ?_, ?_⟩
  · intro h1 h2
    simp [TransactionService.record_transaction, fromString_eq_none tx_type h1 h2]
  · intro he hu ha hc
    subst he
    have h0 : ¬ amount ≤ 0 := not_le.mpr ha
    have hne : ¬ (currency = "" ∨ currency.length ≠ 3) := by
      rintro (rfl | hbad)
      · simp at hc
      · exact hbad hc
    have haware : (TransactionService.normalize_datetime occurred_at).aware = true := by
      by_cases hb : occurred_at.aware <;> simp [TransactionService.normalize_datetime, hb]
    simp [TransactionService.record_transaction, normalize_as_ite, Money.make,
      Transaction.create, h0, hne, hu, haware, TransactionType.fromString]
  · intro he hu ha hc
    subst he
    have h0 : ¬ amount ≤ 0 := not_le.mpr ha
    have hne : ¬ (currency = "" ∨ currency.length ≠ 3) := by
      rintro (rfl | hbad)
      · simp at hc
      · exact hbad hc
    have haware : (TransactionService.normalize_datetime occurred_at).aware = true := by
      by_cases hb : occurred_at.aware <;> simp [TransactionService.normalize_datetime, hb]
    simp [TransactionService.record_transaction, normalize_as_ite, Money.make,
      Transaction.create, h0, hne, hu, haware, TransactionType.fromString]

theorem record_transaction_type_check_witness :
    TransactionService.record_transaction [] "id1" ⟨8, true⟩ "u1" "transfer" 5 "RUB"
        ⟨5, true⟩ none none none
      = (.error (.DomainValidationError ("Unsupported transaction type: " ++ "transfer")), [])
    ∧ TransactionService.record_transaction [] "id1" ⟨8, true⟩ "u1" "expense" 5 "RUB"
        ⟨5, true⟩ none none none
      = (.ok ⟨"id1", "u1", .expense, ⟨5, "RUB"⟩,
          TransactionService.normalize_datetime ⟨5, true⟩, ⟨8, true⟩, none, none, none⟩,
        [] ++ [⟨"id1", "u1", .expense, ⟨5, "RUB"⟩,
          TransactionService.normalize_datetime ⟨5, true⟩, ⟨8, true⟩, none, none, none⟩])
    ∧ TransactionService.record_transaction [] "id2" ⟨9, true⟩ "u1" "income" 7 "RUB"
        ⟨6, true⟩ none none none
      = (.ok ⟨"id2", "u1", .income, ⟨7, "RUB"⟩,
          TransactionService.normalize_datetime ⟨6, true⟩, ⟨9, true⟩, none, none, none⟩,
        [] ++ [⟨"id2", "u1", .income, ⟨7, "RUB"⟩,
          TransactionService.normalize_datetime ⟨6, true⟩, ⟨9, true⟩, none, none, none⟩]) :=
  ⟨(record_transaction_type_check [] "id1" ⟨8, true⟩ "u1" "transfer" 5 "RUB"
      ⟨5, true⟩ none none none).1 (by decide) (by decide),
   (record_transaction_type_check [] "id1" ⟨8, true⟩ "u1" "expense" 5 "RUB"
      ⟨5, true⟩ none none none).2.1 rfl (by decide) (by norm_num) (by decide),
   (record_transaction_type_check [] "id2" ⟨9, true⟩ "u1" "income" 7 "RUB"
      ⟨6, true⟩ none none none).2.2 rfl (by decide) (by norm_num) (by decide)⟩

theorem unsupported_msg_ne (s : String) :
    ("Unsupported transaction type: " ++ s)
      ≠ "occurred_at must be timezone-aware (e.g. UTC)" := by
  obtain ⟨l⟩ := s
  intro h
  have h2 : some 'U' = some 'o' := congrArg (fun t => t.data.head?) h
  exact absurd (Option.some.inj h2) (by decide)

theorem money_make_error_msg (amount : Rat) (currency : String) (e : DomainError)
    (h : Money.make amount currency = .error e) :
    e = .DomainValidationError "Amount must be greater than 0"
    ∨ e = .DomainValidationError "Currency must be a 3-letter code (e.g. RUB)" := by
  unfold Money.make at h
  by_cases h1 : amount ≤ 0
  · simp [h1] at h
    exact Or.inl h.symm
  · by_cases h2 : currency = "" ∨ currency.length ≠ 3
    · simp [h1, h2] at h
      exact Or.inr h.symm
    · simp [h1, h2] at h

/-- C10: when the service is called with a timezone-naive occurred_at, the
domain layer's naive-timestamp rejection is unreachable: record_transaction
never returns that validation error, and a successfully created transaction
carries the input instant reinterpreted as UTC (timezone-aware). -/
theorem record_transaction_naive_unreachable (store : List Transaction) (freshId : String)
    (now : PyDateTime) (user_id tx_type : String) (amount : Rat) (currency : String)
    (occurred_at : PyDateTime) (category_id account_id description : Option String)
    (hnaive : occurred_at.aware = false) :
    (TransactionService.record_transaction store freshId now user_id tx_type amount currency
        occurred_at category_id account_id description).1
      ≠ .error (.DomainValidationError "occurred_at must be timezone-aware (e.g. UTC)")
    ∧ ∀ tx, (TransactionService.record_transaction store freshId now user_id tx_type amount
        currency occurred_at category_id account_id description).1 = .ok tx →
      tx.occurred_at = ⟨occurred_at.wall, true⟩ := by
  have hocc : (if occurred_at.aware = false then { occurred_at with aware := true }
      else occurred_at) = (⟨occurred_at.wall, true⟩ : PyDateTime) := by
    simp [hnaive]
  cases hf : TransactionType.fromString tx_type with
  | none =>
    constructor
    · intro hbad
      simp [TransactionService.record_transaction, hf] at hbad
      exact unsupported_msg_ne tx_type hbad
    · intro tx htx
      simp [TransactionService.record_transaction, hf] at htx
  | some ttype =>
    cases hm : Money.make amount currency with
    | error e =>
      constructor
      · intro hbad
        simp [TransactionService.record_transaction, hf, hm] at hbad
        rcases money_make_error_msg amount currency e hm with rfl | rfl
        · exact absurd hbad (by decide)
        · exact absurd hbad (by decide)
      · intro tx htx
        simp [TransactionService.record_transaction, hf, hm] at htx
    | ok money =>
      by_cases hu : user_id = ""
      · constructor
        · intro hbad
          simp [TransactionService.record_transaction, hf, hm, hocc,
            Transaction.create, hu] at hbad
        · intro tx htx
          simp [TransactionService.record_transaction, hf, hm, hocc,
            Transaction.create, hu] at htx
      · constructor
        · intro hbad
          simp [TransactionService.record_transaction, hf, hm, hocc,
            Transaction.create, hu] at hbad
        · intro tx htx
          simp [TransactionService.record_transaction, hf, hm, hocc,
            Transaction.create, hu] at htx
          rw [← htx]

theorem record_transaction_naive_unreachable_witness :
    (TransactionService.record_transaction [] "id3" ⟨8, true⟩ "u1" "expense" 5 "RUB"
        ⟨5, false⟩ none none none).1
      ≠ .error (.DomainValidationError "occurred_at must be timezone-aware (e.g. UTC)")
    ∧ (⟨"id3", "u1", .expense, ⟨5, "RUB"⟩, ⟨5, true⟩, ⟨8, true⟩, none, none, none⟩
        : Transaction).occurred_at = ⟨(5 : Int), true⟩ := by
  have h := record_transaction_naive_unreachable [] "id3" ⟨8, true⟩ "u1" "expense" 5 "RUB"
    ⟨5, false⟩ none none none rfl
  exact ⟨h.1, h.2 ⟨"id3", "u1", .expense, ⟨5, "RUB"⟩, ⟨5, true⟩, ⟨8, true⟩, none, none, none⟩
    (by with_unfolding_all rfl)⟩

theorem money_make_ok_inv (amount : Rat) (currency : String) (m : Money)
    (h : Money.make amount currency = .ok m) :
    ¬ amount ≤ 0 ∧ ¬ (currency = "" ∨ currency.length ≠ 3) := by
  unfold Money.make at h
  by_cases h1 : amount ≤ 0
  · simp [h1] at h
  · by_cases h2 : currency = "" ∨ currency.length ≠ 3
    · simp [h1, h2] at h
    · exact ⟨h1, h2⟩

theorem to_domain_stored_row (tx : Transaction)
    (hcur : ¬ (tx.money.currency = "" ∨ tx.money.currency.length ≠ 3))
    (hq : 0 < quantize2 tx.money.amount) :
    SQLAlchemyTransactionRepository.to_domain
      ⟨tx.id, tx.user_id, tx.type.value, quantize2 tx.money.amount, tx.money.currency,
        ⟨tx.occurred_at.wall, false⟩, ⟨tx.created_at.wall, false⟩,
        tx.category_id, tx.account_id, tx.description⟩
      = some ⟨tx.id, tx.user_id, tx.type, ⟨quantize2 tx.money.amount, tx.money.currency⟩,
          ⟨tx.occurred_at.wall, false⟩, ⟨tx.created_at.wall, false⟩,
          tx.category_id, tx.account_id, tx.description⟩ := by
  unfold SQLAlchemyTransactionRepository.to_domain
  rw [show (⟨tx.id, tx.user_id, tx.type.value, quantize2 tx.money.amount, tx.money.currency,
      ⟨tx.occurred_at.wall, false⟩, ⟨tx.created_at.wall, false⟩,
      tx.category_id, tx.account_id, tx.description⟩
      : TransactionRow).type = tx.type.value from rfl]
  rw [fromString_value]
  have h0 : ¬ quantize2 tx.money.amount ≤ 0 := not_le.mpr hq
  simp [Money.make, h0, hcur]

theorem mem_insertByCreatedDesc (row x : TransactionRow) (l : List TransactionRow) :
    x ∈ insertByCreatedDesc row l ↔ x = row ∨ x ∈ l := by
  induction l with
  | nil => simp [insertByCreatedDesc]
  | cons r rest ih =>
    by_cases h : r.created_at.wall < row.created_at.wall
    · simp [insertByCreatedDesc, h]
    · simp [insertByCreatedDesc, h, ih]
      tauto

theorem mem_sortByCreatedDesc (x : TransactionRow) (l : List TransactionRow) :
    x ∈ sortByCreatedDesc l ↔ x ∈ l := by
  induction l with
  | nil => simp [sortByCreatedDesc]
  | cons r rest ih => simp [sortByCreatedDesc, mem_insertByCreatedDesc, ih]

theorem toDomainAll_mem (rows : List TransactionRow) (l : List Transaction)
    (h : toDomainAll rows = some l) (row : TransactionRow) (hrow : row ∈ rows)
    (tx : Transaction) (htx : SQLAlchemyTransactionRepository.to_domain row = some tx) :
    tx ∈ l := by
  induction rows generalizing l with
  | nil => simp at hrow
  | cons r rest ih =>
    unfold toDomainAll at h
    cases hr : SQLAlchemyTransactionRepository.to_domain r with
    | none =>
      rw [hr] at h
      simp at h
    | some txr =>
      cases hrest : toDomainAll rest with
      | none =>
        rw [hr, hrest] at h
        simp at h
      | some txs =>
        rw [hr, hrest] at h
        simp at h
        rcases List.mem_cons.mp hrow with rfl | hrow'
        · rw [hr] at htx
          rw [← h]
          exact (Option.some.inj htx) ▸ List.mem_cons_self _ _
        · rw [← h]
          exact List.mem_cons_of_mem _ (ih txs hrest hrow')

/-- C3 (amended): a transaction whose id is not yet in the table, added
through the repository's add, is returned by a get with its id, and by
list_by_user whenever that query returns a result list, equal to the added
value on id, user_id, type, currency and the optional fields; the amount
comes back quantized to the scale of the Numeric(12, 2) column (unchanged
exactly when the amount is representable at 2 decimal places) and
occurred_at/created_at come back timezone-naive at the same wall-clock
instant (the SQLite DATETIME storage). -/
theorem repo_add_roundtrip (table : List TransactionRow) (tx : Transaction)
    (hmoney : Money.make tx.money.amount tx.money.currency = .ok tx.money)
    (hq : 0 < quantize2 tx.money.amount)
    (hfresh : ∀ row ∈ table, row.id ≠ tx.id) :
    SQLAlchemyTransactionRepository.get (SQLAlchemyTransactionRepository.add table tx) tx.id
      = some ⟨tx.id, tx.user_id, tx.type, ⟨quantize2 tx.money.amount, tx.money.currency⟩,
          ⟨tx.occurred_at.wall, false⟩, ⟨tx.created_at.wall, false⟩,
          tx.category_id, tx.account_id, tx.description⟩
    ∧ ∀ l, SQLAlchemyTransactionRepository.list_by_user
        (SQLAlchemyTransactionRepository.add table tx) tx.user_id = some l →
      (⟨tx.id, tx.user_id, tx.type, ⟨quantize2 tx.money.amount, tx.money.currency⟩,
          ⟨tx.occurred_at.wall, false⟩, ⟨tx.created_at.wall, false⟩,
          tx.category_id, tx.account_id, tx.description⟩ : Transaction) ∈ l := by
  have hcur : ¬ (tx.money.currency = "" ∨ tx.money.currency.length ≠ 3) :=
    (money_make_ok_inv tx.money.amount tx.money.currency tx.money hmoney).2
  constructor
  · unfold SQLAlchemyTransactionRepository.get SQLAlchemyTransactionRepository.add
    rw [List.find?_append]
    rw [show List.find? (fun row => decide (row.id = tx.id)) table = none from
      List.find?_eq_none.mpr (fun row hm => by simpa using hfresh row hm)]
    simp only [Option.none_or]
    rw [List.find?_cons_of_pos _ (by simp)]
    exact to_domain_stored_row tx hcur hq
  · intro l h
    unfold SQLAlchemyTransactionRepository.list_by_user SQLAlchemyTransactionRepository.add at h
    refine toDomainAll_mem _ l h
      ⟨tx.id, tx.user_id, tx.type.value, quantize2 tx.money.amount, tx.money.currency,
        ⟨tx.occurred_at.wall, false⟩, ⟨tx.created_at.wall, false⟩,
        tx.category_id, tx.account_id, tx.description⟩
      ?_ _ (to_domain_stored_row tx hcur hq)
    rw [mem_sortByCreatedDesc]
    refine List.mem_filter.mpr ⟨List.mem_append_right _ (List.mem_singleton.mpr rfl), by simp⟩

theorem repo_add_roundtrip_witness :
    SQLAlchemyTransactionRepository.get
        (SQLAlchemyTransactionRepository.add [] txExpenseFood) "t1"
      = some ⟨"t1", "u1", .expense, ⟨quantize2 txExpenseFood.money.amount, "RUB"⟩,
          ⟨5, false⟩, ⟨1, false⟩, some "food", none, none⟩
    ∧ (⟨"t1", "u1", .expense, ⟨quantize2 txExpenseFood.money.amount, "RUB"⟩,
        ⟨5, false⟩, ⟨1, false⟩, some "food", none, none⟩ : Transaction)
      ∈ [⟨"t1", "u1", .expense, ⟨quantize2 txExpenseFood.money.amount, "RUB"⟩,
          ⟨5, false⟩, ⟨1, false⟩, some "food", none, none⟩] := by
  have h := repo_add_roundtrip [] txExpenseFood (by with_unfolding_all rfl)
    (by rw [show quantize2 txExpenseFood.money.amount = 100 from by with_unfolding_all rfl]
        norm_num)
    (by simp)
  exact ⟨h.1, h.2 [⟨"t1", "u1", .expense, ⟨quantize2 txExpenseFood.money.amount, "RUB"⟩,
    ⟨5, false⟩, ⟨1, false⟩, some "food", none, none⟩] (by with_unfolding_all rfl)⟩

/-- A transaction with the valid amount 0.005: Money accepts it (0.005 > 0,
currency length 3), but the Numeric(12, 2) column cannot store it exactly. -/
def txTinyAmount : Transaction :=
  ⟨"t9", "u1", .expense, ⟨1/200, "RUB"⟩, ⟨5, true⟩, ⟨1, true⟩, none, none, none⟩

/-- C3 counterexample: add followed by get on the stored transaction with
amount 0.005 does not return the added value field-by-field; the fetched
amount is the quantized 0.01 (and the timestamps come back naive). -/
theorem repo_add_roundtrip_counterexample :
    SQLAlchemyTransactionRepository.get
        (SQLAlchemyTransactionRepository.add [] txTinyAmount) "t9"
      ≠ some txTinyAmount := by
  rw [show SQLAlchemyTransactionRepository.get
        (SQLAlchemyTransactionRepository.add [] txTinyAmount) "t9"
      = some ⟨"t9", "u1", .expense, ⟨1/100, "RUB"⟩, ⟨5, false⟩, ⟨1, false⟩, none, none, none⟩
    from by with_unfolding_all rfl]
  intro h
  have h2 := Option.some.inj h
  have h3 : (1/100 : Rat) = 1/200 := congrArg (fun t => t.money.amount) h2
  norm_num at h3
